import Mathlib

/-!
Shallow embedding of the SUCOP regulatory-monitoring crawler
(`sucop_crawler.py`).  Pure functions of the source are translated into
Lean functions; the stateful traversal loop is modelled as explicit
recursion over the finite sequence of rendered pages; fallible code
returns `Option` or `Except`.  Machine-level concerns (browser, network,
file system, logging) are at the interface boundary and appear only as
the values they hand to the pure core.
-/

namespace SUCOP

/-! ### Python / polars string primitives

`str.strip()` in Python and `.str.strip()` in polars remove leading and
trailing whitespace; the regex class in `replace_all(r"\s+", " ")` covers
space, tab, newline, carriage return, vertical tab and form feed. -/

def isPyWs (c : Char) : Bool :=
  c == ' ' || c == '\t' || c == '\n' || c == '\r' || c == '\x0b' || c == '\x0c'

/-- Python `str.strip()`: remove leading and trailing whitespace. -/
def pyStrip (s : String) : String :=
  String.mk (((s.data.dropWhile isPyWs).reverse.dropWhile isPyWs).reverse)

/-- One pass of the regex replacement `replace_all(r"\s+", " ")`: every
maximal run of whitespace becomes a single space.  The boolean argument
records whether the previous character belonged to a whitespace run. -/
def collapseAux : Bool → List Char → List Char
  | _, [] => []
  | prevWs, c :: cs =>
    if isPyWs c then
      if prevWs then collapseAux true cs
      else ' ' :: collapseAux true cs
    else c :: collapseAux false cs

/-- The title cleanup of `transform_data` (line 537): polars
`.str.strip()` followed by `.str.replace_all(r"\s+", " ")`. -/
def cleanTitle (s : String) : String :=
  String.mk (collapseAux false (pyStrip s).data)

/-- Body of a Python integer literal after its first digit: digits with
single underscores allowed between digits. -/
def intBody : List Char → Bool
  | [] => true
  | c :: cs =>
    if c.isDigit then intBody cs
    else if c == '_' then
      match cs with
      | [] => false
      | d :: ds => d.isDigit && intBody ds
    else false

def digitsValue (l : List Char) : Nat :=
  l.foldl (fun a c => a * 10 + (c.toNat - 48)) 0

def natDigits (l : List Char) : Option Nat :=
  match l with
  | [] => none
  | c :: _ =>
    if c.isDigit && intBody l then
      some (digitsValue (l.filter (fun x => x != '_')))
    else none

/-- Python `int(s)` on an already-stripped string: optional sign followed
by digits (single underscores permitted between digits); any other shape
raises `ValueError`, modelled as `none`. -/
def pyInt (s : String) : Option Int :=
  match s.data with
  | '+' :: rest => (natDigits rest).map (fun n => (n : Int))
  | '-' :: rest => (natDigits rest).map (fun n => -(n : Int))
  | l => (natDigits l).map (fun n => (n : Int))

/-! ### Calendar dates in `DD/MM/YYYY` text form

Both `datetime.strptime(s, "%d/%m/%Y")` (filter validation) and the
polars `str.strptime(pl.Date, "%d/%m/%Y")` (normalization) parse a
day/month/year triple separated by slashes and reject calendar-invalid
dates such as 31/02. -/

structure Fecha where
  year : Nat
  month : Nat
  day : Nat
deriving Repr, DecidableEq

def isLeap (y : Nat) : Bool :=
  (y % 4 == 0 && y % 100 != 0) || y % 400 == 0

def daysInMonth (y m : Nat) : Nat :=
  if m == 2 then (if isLeap y then 29 else 28)
  else if m == 4 || m == 6 || m == 9 || m == 11 then 30
  else 31

/-- Split a character list at every slash, like `"…".split("/")`. -/
def splitSlash : List Char → List (List Char)
  | [] => [[]]
  | c :: cs =>
    if c == '/' then [] :: splitSlash cs
    else
      match splitSlash cs with
      | [] => [[c]]
      | g :: gs => (c :: g) :: gs

/-- Numeric value of a nonempty all-digit character group, `none`
otherwise; this is `isdigit()` followed by `int(...)`. -/
def listToNat? (l : List Char) : Option Nat :=
  if !l.isEmpty && l.all Char.isDigit then some (digitsValue l) else none

/-- Parse `DD/MM/YYYY` text (pattern `%d/%m/%Y`): three slash-separated
digit groups, day and month up to two digits, year four digits, subject
to calendar validity. -/
def parseDMY (s : String) : Option Fecha :=
  match splitSlash s.data with
  | [d, m, y] =>
    match listToNat? d, listToNat? m, listToNat? y with
    | some dn, some mn, some yn =>
      if d.length ≤ 2 ∧ m.length ≤ 2 ∧ y.length = 4 ∧
         1 ≤ mn ∧ mn ≤ 12 ∧ 1 ≤ dn ∧ dn ≤ daysInMonth yn mn
      then some ⟨yn, mn, dn⟩ else none
    | _, _, _ => none
  | _ => none

/-- `datetime` comparison: year, then month, then day. -/
def fechaLt (a b : Fecha) : Bool :=
  decide (a.year < b.year) ||
    (a.year == b.year && (decide (a.month < b.month) ||
      (a.month == b.month && decide (a.day < b.day))))

/-- Modelled from the spec: re-serialization of a calendar date back to
the `DD/MM/YYYY` text form produced by the site.  The source only parses
this format (`%d/%m/%Y`); the inverse serializer needed by the spec's
date round-trip property is not present in the code, so it is written
from the format pattern itself: zero-padded day and month, full year. -/
def formatDMY (f : Fecha) : String :=
  (if f.day < 10 then "0" ++ toString f.day else toString f.day) ++ "/" ++
    (if f.month < 10 then "0" ++ toString f.month else toString f.month) ++ "/" ++
    toString f.year

/-! ### Record Extractor (`parse_normativa`, lines 411-516)

BeautifulSoup navigation is the interface boundary: a page is a list of
`proceso` item containers, each already resolved through the two-tier
class fallback (`bq-...` or the secondary class) to the optional blocks
the extractor reads.  `headerLink = none` means no header div was found;
`some none` means the header div had no anchor. -/

structure Enlace where
  text : String
  href : Option String
deriving Repr, DecidableEq

structure FechaCol where
  valueSpan : Option String
deriving Repr, DecidableEq

structure FechasBlock where
  pub : Option FechaCol
  cierre : Option FechaCol
deriving Repr, DecidableEq

structure EstadoBlock where
  inner : Option String
deriving Repr, DecidableEq

structure ComentBlock where
  num : Option String
deriving Repr, DecidableEq

structure Proceso where
  headerLink : Option (Option Enlace)
  fechas : Option FechasBlock
  estadoBlock : Option EstadoBlock
  comentBlock : Option ComentBlock
deriving Repr, DecidableEq

/-- The raw record dict built at lines 494-501. -/
structure Normativa where
  titulo : String
  url : String
  fecha_publicacion : String
  fecha_cierre : String
  estado : String
  comentarios : Int
deriving Repr, DecidableEq

/-- Per-item body of the `for proceso in procesos` loop (lines 430-501):
skip when the header or its anchor is missing or the `href` is empty;
dates, status and comment count each default independently. -/
def parseProceso (p : Proceso) : Option Normativa :=
  match p.headerLink with
  | none => none
  | some none => none
  | some (some link) =>
    let titulo := pyStrip link.text
    let url := link.href.getD ""
    if url = "" then none
    else
      let fecha_publicacion :=
        match p.fechas with
        | some fb =>
          match fb.pub with
          | some col =>
            match col.valueSpan with
            | some s => pyStrip s
            | none => ""
          | none => ""
        | none => ""
      let fecha_cierre :=
        match p.fechas with
        | some fb =>
          match fb.cierre with
          | some col =>
            match col.valueSpan with
            | some s => pyStrip s
            | none => ""
          | none => ""
        | none => ""
      let estado :=
        match p.estadoBlock with
        | some eb =>
          match eb.inner with
          | some s => pyStrip s
          | none => ""
        | none => ""
      let comentarios : Int :=
        match p.comentBlock with
        | some cb =>
          match cb.num with
          | some s => (pyInt (pyStrip s)).getD 0
          | none => 0
        | none => 0
      some ⟨titulo, url, fecha_publicacion, fecha_cierre, estado, comentarios⟩

/-- The accumulation over all item containers, with the membership check
of lines 503-505: a candidate is appended only if no record with the
same url is already in the accumulated list. -/
def parseLoop : List Proceso → List Normativa → List Normativa
  | [], acc => acc
  | p :: rest, acc =>
    match parseProceso p with
    | none => parseLoop rest acc
    | some n =>
      if acc.any (fun m => m.url == n.url) then parseLoop rest acc
      else parseLoop rest (acc ++ [n])

/-- `parse_normativa`: called once per run on the concatenation of every
page's rendered markup, so the accumulator spans all pages. -/
def parse_normativa (procesos : List Proceso) : List Normativa :=
  parseLoop procesos []

/-! ### Pagination Traversal Engine (`get_page_content`, lines 323-403)

One rendered page: whether any `bq-proceso` containers were found, the
page source collected when they were, and the pagination links, each
carrying an optional `data-num` attribute.  Clicking the link for page
`n+1` makes the next element of the page sequence current. -/

structure Page where
  hasProcesos : Bool
  src : String
  links : List (Option String)
deriving Repr, DecidableEq

/-- Lines 353-356: the attribute must exist, be all digits, and its
integer value must equal `current_page + 1`; `listToNat?` succeeds
exactly on nonempty all-digit strings, matching `isdigit()` plus
`int(...)`. -/
def isNextLink (current : Nat) : Option String → Bool
  | some s => listToNat? s.data == some (current + 1)
  | none => false

/-- The `while True` loop of lines 323-392: collect the page source when
item containers are present, then advance if and only if a pagination
control targeting `current + 1` exists; otherwise break. -/
def get_content_loop : List Page → Nat → List String
  | [], _ => []
  | p :: rest, current =>
    let collected := if p.hasProcesos then [p.src] else []
    if p.links.any (isNextLink current) then
      collected ++ get_content_loop rest (current + 1)
    else collected

/-- A well-formed traversal prefix: starting from page number `current`,
every page except the last links to its successor and the last page has
no successor link. -/
def chainedB : List Page → Nat → Bool
  | [], _ => true
  | p :: rest, current =>
    (p.links.any (isNextLink current) == !rest.isEmpty) && chainedB rest (current + 1)

/-! ### Renderer retry policy (`retry_with_delay`, lines 165-175) -/

/-- Observable behaviour of one `retry_with_delay` call: the surfaced
result, how many times the wrapped function was invoked, and the
`time.sleep` durations performed between attempts. -/
structure RetryTrace (E A : Type) where
  result : Except E A
  calls : Nat
  sleeps : List Nat
deriving Repr

/-- `attempt` is the index of the attempt about to run; the `Nat`
argument counts the attempts remaining after this one.  On the last
attempt a failure is re-raised without sleeping. -/
def retryAux {E A : Type} (f : Nat → Except E A) (delay : Nat) :
    Nat → Nat → RetryTrace E A
  | attempt, 0 => ⟨f attempt, 1, []⟩
  | attempt, remaining + 1 =>
    match f attempt with
    | .ok a => ⟨.ok a, 1, []⟩
    | .error _ =>
      let t := retryAux f delay (attempt + 1) remaining
      ⟨t.result, t.calls + 1, delay :: t.sleeps⟩

/-- `retry_with_delay(func, max_retries, delay)`; the source always calls
it with the defaults `max_retries=3, delay=5`. -/
def retry_with_delay {E A : Type} (f : Nat → Except E A)
    (max_retries delay : Nat) : RetryTrace E A :=
  retryAux f delay 0 (max_retries - 1)

/-! ### Normalization (`transform_data`, lines 518-562) -/

structure NormalizedRecord where
  titulo : String
  url : String
  fecha_publicacion : Fecha
  fecha_cierre : Fecha
  estado : String
  comentarios : Int
  entidad : String
  sector : String
  fecha_extraccion : Nat
deriving Repr, DecidableEq

/-- Row image of the `with_columns` block (lines 531-548): strict date
parsing, title cleanup, comment count kept as an integer, constant
entity and sector, and the single run timestamp `t`
(`pl.lit(datetime.now())`, evaluated once per call). -/
def normalizeRecord (t : Nat) (n : Normativa) : Option NormalizedRecord :=
  match parseDMY n.fecha_publicacion, parseDMY n.fecha_cierre with
  | some fp, some fc =>
    some ⟨cleanTitle n.titulo, n.url, fp, fc, n.estado, n.comentarios,
      "Ministerio de Agricultura y Desarrollo Rural", "Agropecuario", t⟩
  | _, _ => none

/-- Column-wise strict `strptime` over the whole frame: one bad value
raises, the surrounding `except` turns that into `None` for the whole
call, so the result is all rows or nothing. -/
def normalizeAll (t : Nat) : List Normativa → Option (List NormalizedRecord)
  | [] => some []
  | n :: rest =>
    match normalizeRecord t n, normalizeAll t rest with
    | some r, some rs => some (r :: rs)
    | _, _ => none

/-- `transform_data` (lines 518-562): empty input returns `None`
(line 523-525); any transformation error is caught and also yields
`None` (lines 560-562). -/
def transform_data (normativas : List Normativa) (t : Nat) :
    Option (List NormalizedRecord) :=
  if normativas.isEmpty then none
  else normalizeAll t normativas

/-- The `columnas` reordering list of lines 551-554. -/
def transform_columnas : List String :=
  ["titulo", "url", "fecha_publicacion", "fecha_cierre",
   "estado", "comentarios", "entidad", "sector", "fecha_extraccion"]

/-- `json_to_csv` (lines 647-713), transcribed from its own body: the
reprocessing path applied to raw records recovered from the JSON dump.
Empty input returns early (lines 657-659); the `with_columns` block of
lines 665-682 repeats the transformations; errors are caught
(lines 712-713). -/
def json_to_csv (normativas : List Normativa) (t : Nat) :
    Option (List NormalizedRecord) :=
  if normativas.isEmpty then none
  else normalizeAll t normativas

/-- The `columnas` reordering list of lines 685-688. -/
def json_to_csv_columnas : List String :=
  ["titulo", "url", "fecha_publicacion", "fecha_cierre",
   "estado", "comentarios", "entidad", "sector", "fecha_extraccion"]

/-- `save_to_csv` (lines 579-613): empty data returns without writing;
a `None` from `transform_data` returns without writing; otherwise the
transformed frame is what gets written.  The value is the CSV content
written, `none` when no file is produced. -/
def save_to_csv (data : List Normativa) (t : Nat) :
    Option (List NormalizedRecord) :=
  if data.isEmpty then none
  else
    match transform_data data t with
    | none => none
    | some df => some df

/-- `save_to_json` (lines 564-577): empty data returns without writing. -/
def save_to_json (data : List Normativa) : Option (List Normativa) :=
  if data.isEmpty then none else some data

/-- What a run writes: the JSON dump and the CSV, or `none` for a file
that was never produced. -/
structure RunResult where
  jsonOut : Option (List Normativa)
  csvOut : Option (List NormalizedRecord)
deriving Repr, DecidableEq

/-- `run` (lines 615-645) after the fetch: `content = none` models a
fetch that returned nothing (line 622-624); with content, the parsed
records are checked for emptiness (lines 631-633) before any output is
written. -/
def run_after_fetch (content : Option (List Proceso)) (t : Nat) : RunResult :=
  match content with
  | none => ⟨none, none⟩
  | some procesos =>
    let normativas := parse_normativa procesos
    if normativas.isEmpty then ⟨none, none⟩
    else ⟨save_to_json normativas, save_to_csv normativas t⟩

/-! ### Filter validation (`SUCOPCrawler.__init__`, lines 99-126) -/

/-- Python truthiness of the optional date strings in
`if fecha_inicio and fecha_fin`. -/
def truthy : Option String → Bool
  | some s => s != ""
  | none => false

/-- Lines 114-122: when both bounds are given, parse both and reject a
start date after the end date; a parse failure raises the same wrapped
`ValueError`. -/
def validar_fechas (fecha_inicio fecha_fin : Option String) :
    Except String Unit :=
  if truthy fecha_inicio && truthy fecha_fin then
    match parseDMY (fecha_inicio.getD ""), parseDMY (fecha_fin.getD "") with
    | some inicio, some fin =>
      if fechaLt fin inicio then
        .error "Error en el formato de fechas: La fecha de inicio no puede ser posterior a la fecha de fin"
      else .ok ()
    | _, _ => .error "Error en el formato de fechas"
  else .ok ()

structure Crawler where
  estado : Option String
  tipo_documento : Option String
  fecha_inicio : Option String
  fecha_fin : Option String
  base_url : String
deriving Repr, DecidableEq

/-- Side effects performed by `__init__` after the date validation:
`setup_logging` (line 125) and `setup_driver` (line 126), the latter
being the first browser/network interaction. -/
inductive InitEffect
  | logging_setup
  | driver_setup
deriving Repr, DecidableEq

/-- `__init__`: validation happens at lines 114-122, before `base_url`
is set and before `setup_logging`/`setup_driver` run, so a validation
error escapes the constructor with neither effect performed. -/
def crawler_init (estado tipo_documento fecha_inicio fecha_fin : Option String) :
    Except String (Crawler × List InitEffect) :=
  match validar_fechas fecha_inicio fecha_fin with
  | .error msg => .error msg
  | .ok _ =>
    .ok (⟨estado, tipo_documento, fecha_inicio, fecha_fin,
          "https://www.sucop.gov.co/busqueda?pageSize=100"⟩,
         [InitEffect.logging_setup, InitEffect.driver_setup])

/-! ## Theorems -/

/-- Normalization never touches the `url` column. -/
theorem normalizeRecord_url (t : Nat) (n : Normativa) (r : NormalizedRecord)
    (h : normalizeRecord t n = some r) : r.url = n.url := by
  unfold normalizeRecord at h
  cases hp : parseDMY n.fecha_publicacion <;> rw [hp] at h
  · cases h
  · cases hc : parseDMY n.fecha_cierre <;> rw [hc] at h
    · cases h
    · cases h; rfl

/-- A successful normalization maps the url column through unchanged,
in order. -/
theorem normalizeAll_urls (t : Nat) (raws : List Normativa) :
    ∀ out, normalizeAll t raws = some out →
      out.map (fun r => r.url) = raws.map (fun n => n.url) := by
  induction raws with
  | nil =>
    intro out h
    simp only [normalizeAll, Option.some.injEq] at h
    subst h
    rfl
  | cons n rest ih =>
    intro out h
    unfold normalizeAll at h
    cases hn : normalizeRecord t n <;> rw [hn] at h
    · cases h
    · cases hr : normalizeAll t rest <;> rw [hr] at h
      · cases h
      · rename_i r rs
        cases h
        simp only [List.map_cons]
        rw [normalizeRecord_url t n r hn, ih rs hr]

/-- C1 counterexample: `transform_data` has no final dedup on `url`.
Two raw records sharing the url `"u"` both survive normalization, so
the output contains two records for that url. -/
theorem C1_counterexample_dup_urls :
    (transform_data
      [⟨"A", "u", "01/01/2024", "02/01/2024", "Activa", 1⟩,
       ⟨"B", "u", "03/01/2024", "04/01/2024", "Cerrada", 2⟩] 0).map
      (fun out => out.countP (fun r => r.url == "u")) = some 2 := by decide

/-- C1 (amended): `transform_data` applies no dedup of its own; it maps
each input record to one output record, preserving order and urls
one-to-one, so the output has at most one record per url exactly when
the input does — which the extractor's accumulated dedup guarantees for
records produced in a run. -/
theorem C1_transform_preserves_urls (raws : List Normativa) (t : Nat)
    (out : List NormalizedRecord) (h : transform_data raws t = some out) :
    out.map (fun r => r.url) = raws.map (fun n => n.url) ∧
    (raws.Pairwise (fun a b => a.url ≠ b.url) →
      out.Pairwise (fun a b => a.url ≠ b.url)) := by
  have hm : normalizeAll t raws = some out := by
    unfold transform_data at h
    by_cases he : raws.isEmpty
    · simp [he] at h
    · simpa [he] using h
  have hurls := normalizeAll_urls t raws out hm
  refine ⟨hurls, fun hpw => ?_⟩
  have h2 : (raws.map (fun n => n.url)).Pairwise (fun a b => a ≠ b) :=
    (List.pairwise_map).mpr hpw
  have h3 : (out.map (fun r => r.url)).Pairwise (fun a b => a ≠ b) := by
    rw [hurls]; exact h2
  exact (List.pairwise_map).mp h3

/-- Witness for the amended C1 theorem at a concrete one-record input. -/
theorem C1_witness :
    transform_data [⟨"A", "u1", "01/01/2024", "02/01/2024", "Activa", 1⟩] 0 =
      some [⟨"A", "u1", ⟨2024, 1, 1⟩, ⟨2024, 1, 2⟩, "Activa", 1,
        "Ministerio de Agricultura y Desarrollo Rural", "Agropecuario", 0⟩] ∧
    List.map (fun r => r.url)
        [(⟨"A", "u1", ⟨2024, 1, 1⟩, ⟨2024, 1, 2⟩, "Activa", 1,
          "Ministerio de Agricultura y Desarrollo Rural", "Agropecuario", 0⟩ :
            NormalizedRecord)] =
      List.map (fun n => n.url)
        [(⟨"A", "u1", "01/01/2024", "02/01/2024", "Activa", 1⟩ : Normativa)] := by
  have h : transform_data [⟨"A", "u1", "01/01/2024", "02/01/2024", "Activa", 1⟩] 0 =
      some [⟨"A", "u1", ⟨2024, 1, 1⟩, ⟨2024, 1, 2⟩, "Activa", 1,
        "Ministerio de Agricultura y Desarrollo Rural", "Agropecuario", 0⟩] := by decide
  exact ⟨h, (C1_transform_preserves_urls _ 0 _ h).1⟩

/-- A record whose date text does not parse makes its own
normalization fail. -/
theorem normalizeRecord_bad_date (t : Nat) (r : Normativa)
    (h : parseDMY r.fecha_publicacion = none ∨ parseDMY r.fecha_cierre = none) :
    normalizeRecord t r = none := by
  unfold normalizeRecord
  rcases h with h | h
  · rw [h]
  · rw [h]
    cases parseDMY r.fecha_publicacion <;> rfl

/-- One failing record poisons the whole strict column transformation. -/
theorem normalizeAll_bad_mem (t : Nat) (raws : List Normativa) (r : Normativa)
    (hr : r ∈ raws) (hbad : normalizeRecord t r = none) :
    normalizeAll t raws = none := by
  induction raws with
  | nil => cases hr
  | cons n rest ih =>
    rcases List.mem_cons.mp hr with rfl | hmem
    · unfold normalizeAll; rw [hbad]
    · unfold normalizeAll
      rw [ih hmem]
      cases normalizeRecord t n <;> rfl

/-- C2: a raw record whose `publishedDate` or `closingDate` text does
not parse as `DD/MM/YYYY` makes the whole normalization return `None`
(no partial output, no silent per-record dropping), and `save_to_csv`
then writes nothing. -/
theorem C2_bad_date_fails_run (raws : List Normativa) (t : Nat) (r : Normativa)
    (hr : r ∈ raws)
    (hbad : parseDMY r.fecha_publicacion = none ∨ parseDMY r.fecha_cierre = none) :
    transform_data raws t = none ∧ save_to_csv raws t = none := by
  have hnone : normalizeAll t raws = none :=
    normalizeAll_bad_mem t raws r hr (normalizeRecord_bad_date t r hbad)
  have hne : raws.isEmpty = false := by
    cases raws
    · cases hr
    · rfl
  have htd : transform_data raws t = none := by
    unfold transform_data
    rw [hne, hnone]
    rfl
  refine ⟨htd, ?_⟩
  unfold save_to_csv
  rw [hne, htd]
  rfl

/-- Witness for C2 at a record with an ISO-formatted published date,
which `%d/%m/%Y` rejects. -/
theorem C2_witness :
    ((⟨"T", "u", "2024-03-05", "01/01/2024", "", 0⟩ : Normativa) ∈
      [(⟨"T", "u", "2024-03-05", "01/01/2024", "", 0⟩ : Normativa)]) ∧
    transform_data [⟨"T", "u", "2024-03-05", "01/01/2024", "", 0⟩] 0 = none ∧
    save_to_csv [⟨"T", "u", "2024-03-05", "01/01/2024", "", 0⟩] 0 = none := by
  have h := C2_bad_date_fails_run
    [⟨"T", "u", "2024-03-05", "01/01/2024", "", 0⟩] 0
    ⟨"T", "u", "2024-03-05", "01/01/2024", "", 0⟩
    (by decide) (Or.inl (by decide))
  exact ⟨by decide, h.1, h.2⟩

/-- C8: normalization parses `"05/03/2024"` as the calendar date
2024-03-05 (day/month/year order), and re-serializing that date to the
`DD/MM/YYYY` text form reproduces `"05/03/2024"`. -/
theorem C8_date_round_trip :
    (transform_data [⟨"T", "u", "05/03/2024", "05/03/2024", "", 0⟩] 0).map
        (fun out => out.map (fun r => r.fecha_publicacion)) =
      some [⟨2024, 3, 5⟩] ∧
    formatDMY ⟨2024, 3, 5⟩ = "05/03/2024" :=
  ⟨by decide, by decide⟩

/-- C9: re-running normalization over a captured raw-record dump
(`json_to_csv`) produces exactly the records of the in-run path
(`transform_data`) for the same raw records and run timestamp, with the
same column order. -/
theorem C9_reprocessing_matches_transform (normativas : List Normativa) (t : Nat) :
    json_to_csv normativas t = transform_data normativas t ∧
    json_to_csv_columnas = transform_columnas :=
  ⟨rfl, rfl⟩

/-- C10: normalizing the empty record list yields `None` rather than an
empty collection, and a run whose extraction produced zero records stops
before normalization and writes neither the JSON dump nor the CSV. -/
theorem C10_empty_input_no_output (t : Nat) :
    transform_data [] t = none ∧
    (∀ ps : List Proceso, parse_normativa ps = [] →
      run_after_fetch (some ps) t = ⟨none, none⟩) := by
  refine ⟨rfl, fun ps h => ?_⟩
  simp [run_after_fetch, h]

/-- Witness for C10 at the run whose page list contains no item
containers at all. -/
theorem C10_witness :
    parse_normativa ([] : List Proceso) = [] ∧
    transform_data [] 0 = none ∧
    run_after_fetch (some ([] : List Proceso)) 0 = ⟨none, none⟩ := by
  have h := C10_empty_input_no_output 0
  exact ⟨rfl, h.1, h.2 [] rfl⟩

/-- Unfolding equation of the traversal loop on a nonempty page list,
with the collected prefix factored out of the branch. -/
theorem get_content_loop_cons (p : Page) (rest : List Page) (c : Nat) :
    get_content_loop (p :: rest) c =
      (if p.hasProcesos then [p.src] else []) ++
        (if p.links.any (isNextLink c) then get_content_loop rest (c + 1)
         else []) := by
  by_cases h : p.links.any (isNextLink c) = true <;>
    simp [get_content_loop, h]

/-- Traversal over a chained prefix collects exactly the sources of the
prefix pages that had item containers; any pages appended after the
prefix are never reached because the last prefix page has no successor
control. -/
theorem get_content_loop_chained (ps : List Page) :
    ∀ (extra : List Page) (c : Nat), ps ≠ [] → chainedB ps c = true →
      get_content_loop (ps ++ extra) c =
        (ps.filter (fun p => p.hasProcesos)).map (fun p => p.src) := by
  induction ps with
  | nil => intro extra c hne _; cases hne rfl
  | cons p rest ih =>
    intro extra c _ h
    simp only [chainedB, Bool.and_eq_true, beq_iff_eq] at h
    obtain ⟨h1, h2⟩ := h
    rw [List.cons_append, get_content_loop_cons]
    cases rest with
    | nil =>
      simp only [List.isEmpty_nil, Bool.not_true] at h1
      rw [h1]
      cases hp : p.hasProcesos <;> simp [List.filter_cons, hp]
    | cons q rs =>
      simp only [List.isEmpty_cons, Bool.not_false] at h1
      rw [h1]
      simp only [if_true]
      rw [ih extra (c + 1) (by simp) h2]
      cases hp : p.hasProcesos <;> simp [List.filter_cons, hp]

/-- C3: for a finite sequence of rendered pages in which every page
before the last links to its successor and the last page has no control
targeting the next page number, the traversal loop processes exactly
those pages — collecting the source of each page that had item
containers, so a page with zero matching items does not terminate
traversal — and never reaches anything beyond the last chained page. -/
theorem C3_traversal_halts (ps extra : List Page) (hne : ps ≠ [])
    (h : chainedB ps 1 = true) :
    get_content_loop (ps ++ extra) 1 =
      (ps.filter (fun p => p.hasProcesos)).map (fun p => p.src) :=
  get_content_loop_chained ps extra 1 hne h

/-- Witness for C3: page 1 has zero matching items but links to page 2;
page 2 has items and no link to page 3, so a trailing page 3 is never
visited and only the source of page 2 is collected. -/
theorem C3_witness :
    ([(⟨false, "page1", [some "2"]⟩ : Page), ⟨true, "page2", [some "1"]⟩] ≠ []) ∧
    chainedB [⟨false, "page1", [some "2"]⟩, ⟨true, "page2", [some "1"]⟩] 1 = true ∧
    get_content_loop
      [⟨false, "page1", [some "2"]⟩, ⟨true, "page2", [some "1"]⟩,
       ⟨true, "page3", [some "4"]⟩] 1 = ["page2"] := by
  refine ⟨by decide, by decide, ?_⟩
  have h := C3_traversal_halts
    [⟨false, "page1", [some "2"]⟩, ⟨true, "page2", [some "1"]⟩]
    [⟨true, "page3", [some "4"]⟩] (by decide) (by decide)
  exact h.trans (by decide)

/-- Extraction-loop equation: a skipped item leaves the accumulator
untouched. -/
theorem parseLoop_cons_skip (p : Proceso) (ps : List Proceso)
    (acc : List Normativa) (h : parseProceso p = none) :
    parseLoop (p :: ps) acc = parseLoop ps acc := by
  conv_lhs => unfold parseLoop
  rw [h]

/-- Extraction-loop equation: a candidate whose url is already
accumulated is dropped. -/
theorem parseLoop_cons_dup (p : Proceso) (ps : List Proceso)
    (acc : List Normativa) (n : Normativa) (h : parseProceso p = some n)
    (hany : (acc.any fun m => m.url == n.url) = true) :
    parseLoop (p :: ps) acc = parseLoop ps acc := by
  conv_lhs => unfold parseLoop
  rw [h]
  exact if_pos hany

/-- Extraction-loop equation: a candidate with a fresh url is appended. -/
theorem parseLoop_cons_new (p : Proceso) (ps : List Proceso)
    (acc : List Normativa) (n : Normativa) (h : parseProceso p = some n)
    (hany : ¬(acc.any fun m => m.url == n.url) = true) :
    parseLoop (p :: ps) acc = parseLoop ps (acc ++ [n]) := by
  conv_lhs => unfold parseLoop
  rw [h]
  exact if_neg hany

/-- Whatever is already accumulated survives the rest of the extraction
loop. -/
theorem parseLoop_keeps (ps : List Proceso) :
    ∀ (acc : List Normativa), ∀ m ∈ acc, m ∈ parseLoop ps acc := by
  induction ps with
  | nil => intro acc m hm; simpa [parseLoop] using hm
  | cons p rest ih =>
    intro acc m hm
    cases hq : parseProceso p with
    | none =>
      rw [parseLoop_cons_skip p rest acc hq]
      exact ih acc m hm
    | some n =>
      by_cases hany : (acc.any fun m => m.url == n.url) = true
      · rw [parseLoop_cons_dup p rest acc n hq hany]
        exact ih acc m hm
      · rw [parseLoop_cons_new p rest acc n hq hany]
        exact ih (acc ++ [n]) m (List.mem_append_left _ hm)

/-- The membership check keeps the accumulator's urls pairwise
distinct. -/
theorem parseLoop_pairwise (ps : List Proceso) :
    ∀ acc : List Normativa, acc.Pairwise (fun a b => a.url ≠ b.url) →
      (parseLoop ps acc).Pairwise (fun a b => a.url ≠ b.url) := by
  induction ps with
  | nil => intro acc hacc; simpa [parseLoop] using hacc
  | cons p rest ih =>
    intro acc hacc
    cases hq : parseProceso p with
    | none =>
      rw [parseLoop_cons_skip p rest acc hq]
      exact ih acc hacc
    | some n =>
      by_cases hany : (acc.any fun m => m.url == n.url) = true
      · rw [parseLoop_cons_dup p rest acc n hq hany]
        exact ih acc hacc
      · rw [parseLoop_cons_new p rest acc n hq hany]
        refine ih (acc ++ [n]) ?_
        rw [List.pairwise_append]
        refine ⟨hacc, List.pairwise_singleton _ _, ?_⟩
        intro a ha b hb
        rw [List.mem_singleton] at hb
        subst hb
        intro hEq
        exact hany (List.any_eq_true.mpr ⟨a, ha, by simp [hEq]⟩)

/-- Every item the per-item parser accepts leaves a record with its url
in the final accumulated list. -/
theorem parseLoop_mem (ps : List Proceso) :
    ∀ (acc : List Normativa) (p : Proceso) (n : Normativa),
      p ∈ ps → parseProceso p = some n →
      ∃ m ∈ parseLoop ps acc, m.url = n.url := by
  induction ps with
  | nil => intro acc p n hp _; cases hp
  | cons q rest ih =>
    intro acc p n hp hpn
    rcases List.mem_cons.mp hp with rfl | hmem
    · by_cases hany : (acc.any fun m => m.url == n.url) = true
      · rw [parseLoop_cons_dup p rest acc n hpn hany]
        rcases List.any_eq_true.mp hany with ⟨m, hm, hmu⟩
        exact ⟨m, parseLoop_keeps rest acc m hm, by simpa using hmu⟩
      · rw [parseLoop_cons_new p rest acc n hpn hany]
        exact ⟨n, parseLoop_keeps rest (acc ++ [n]) n (by simp), rfl⟩
    · cases hq : parseProceso q with
      | none =>
        rw [parseLoop_cons_skip q rest acc hq]
        exact ih acc p n hmem hpn
      | some n2 =>
        by_cases hany : (acc.any fun m => m.url == n2.url) = true
        · rw [parseLoop_cons_dup q rest acc n2 hq hany]
          exact ih acc p n hmem hpn
        · rw [parseLoop_cons_new q rest acc n2 hq hany]
          exact ih (acc ++ [n2]) p n hmem hpn

/-- C4: the record list returned by the extractor has pairwise-distinct
urls, and every url the per-item parser produced — including one item
occurring on two pages of the same run, since the extractor runs once
over the concatenated pages — appears in the result, hence exactly
once. -/
theorem C4_extractor_unique_urls (ps : List Proceso) :
    (parse_normativa ps).Pairwise (fun a b => a.url ≠ b.url) ∧
    (∀ p n, p ∈ ps → parseProceso p = some n →
      ∃ m ∈ parse_normativa ps, m.url = n.url) := by
  constructor
  · exact parseLoop_pairwise ps [] List.Pairwise.nil
  · intro p n hp hn
    exact parseLoop_mem ps [] p n hp hn

/-- Witness for C4: two item containers with the same url `"u1"`. -/
theorem C4_witness :
    ((⟨some (some ⟨"T", some "u1"⟩), none, none, none⟩ : Proceso) ∈
        [(⟨some (some ⟨"T", some "u1"⟩), none, none, none⟩ : Proceso),
         ⟨some (some ⟨"T2", some "u1"⟩), none, none, none⟩]) ∧
    parseProceso ⟨some (some ⟨"T", some "u1"⟩), none, none, none⟩ =
      some ⟨"T", "u1", "", "", "", 0⟩ ∧
    (parse_normativa
        [⟨some (some ⟨"T", some "u1"⟩), none, none, none⟩,
         ⟨some (some ⟨"T2", some "u1"⟩), none, none, none⟩]).Pairwise
      (fun a b => a.url ≠ b.url) ∧
    (∃ m ∈ parse_normativa
        [⟨some (some ⟨"T", some "u1"⟩), none, none, none⟩,
         ⟨some (some ⟨"T2", some "u1"⟩), none, none, none⟩], m.url = "u1") := by
  have h := C4_extractor_unique_urls
    [⟨some (some ⟨"T", some "u1"⟩), none, none, none⟩,
     ⟨some (some ⟨"T2", some "u1"⟩), none, none, none⟩]
  refine ⟨by decide, by decide, h.1, ?_⟩
  have hm := h.2 ⟨some (some ⟨"T", some "u1"⟩), none, none, none⟩
    ⟨"T", "u1", "", "", "", 0⟩ (by decide) (by decide)
  simpa using hm

/-- C5: with both date bounds present, a start date after the end date
makes construction fail with the wrapped `ValueError` before the driver
setup effect is ever emitted, while bounds with start ≤ end construct
the crawler. -/
theorem C5_filter_validation (e td : Option String) (fi ff : String)
    (i f : Fecha) (hi : parseDMY fi = some i) (hf : parseDMY ff = some f)
    (hfi : fi ≠ "") (hff : ff ≠ "") :
    (fechaLt f i = true →
      crawler_init e td (some fi) (some ff) =
        .error "Error en el formato de fechas: La fecha de inicio no puede ser posterior a la fecha de fin") ∧
    (fechaLt f i = false →
      crawler_init e td (some fi) (some ff) =
        .ok (⟨e, td, some fi, some ff,
              "https://www.sucop.gov.co/busqueda?pageSize=100"⟩,
             [InitEffect.logging_setup, InitEffect.driver_setup])) := by
  have htf : truthy (some fi) = true := by simp [truthy, hfi]
  have htff : truthy (some ff) = true := by simp [truthy, hff]
  unfold crawler_init validar_fechas
  rw [htf, htff]
  simp only [Bool.and_self, if_true, Option.getD_some]
  rw [hi, hf]
  constructor
  · intro hlt
    simp [hlt]
  · intro hlt
    simp [hlt]

/-- Witness for C5: start 01/06/2024 after end 01/01/2024 fails, the
swapped bounds construct successfully. -/
theorem C5_witness :
    parseDMY "01/06/2024" = some ⟨2024, 6, 1⟩ ∧
    parseDMY "01/01/2024" = some ⟨2024, 1, 1⟩ ∧
    crawler_init none none (some "01/06/2024") (some "01/01/2024") =
      .error "Error en el formato de fechas: La fecha de inicio no puede ser posterior a la fecha de fin" ∧
    crawler_init none none (some "01/01/2024") (some "01/06/2024") =
      .ok (⟨none, none, some "01/01/2024", some "01/06/2024",
            "https://www.sucop.gov.co/busqueda?pageSize=100"⟩,
           [InitEffect.logging_setup, InitEffect.driver_setup]) := by
  refine ⟨by decide, by decide, ?_, ?_⟩
  · exact (C5_filter_validation none none "01/06/2024" "01/01/2024"
      ⟨2024, 6, 1⟩ ⟨2024, 1, 1⟩ (by decide) (by decide) (by decide) (by decide)).1
      (by decide)
  · exact (C5_filter_validation none none "01/01/2024" "01/06/2024"
      ⟨2024, 1, 1⟩ ⟨2024, 6, 1⟩ (by decide) (by decide) (by decide) (by decide)).2
      (by decide)

/-- C6: an item container is skipped exactly when its title anchor is
absent (no header, or a header without an anchor) or its url is empty;
a missing date block, status block or comment-count block leaves the
record with the empty-string or zero default, and comment text that
fails integer parsing yields 0 without failing the record. -/
theorem C6_skip_only_missing_identity (p : Proceso) :
    (parseProceso p = none ↔
      (p.headerLink = none ∨ p.headerLink = some none ∨
        ∃ link, p.headerLink = some (some link) ∧ link.href.getD "" = "")) ∧
    (∀ r, parseProceso p = some r →
      (p.fechas = none → r.fecha_publicacion = "" ∧ r.fecha_cierre = "") ∧
      (p.estadoBlock = none → r.estado = "") ∧
      (p.comentBlock = none → r.comentarios = 0) ∧
      (∀ cb s, p.comentBlock = some cb → cb.num = some s →
        pyInt (pyStrip s) = none → r.comentarios = 0)) := by
  obtain ⟨hl, fe, eb, cb⟩ := p
  cases hl with
  | none =>
    constructor
    · simp [parseProceso]
    · intro r hr
      simp [parseProceso] at hr
  | some lo =>
    cases lo with
    | none =>
      constructor
      · simp [parseProceso]
      · intro r hr
        simp [parseProceso] at hr
    | some link =>
      by_cases hurl : link.href.getD "" = ""
      · constructor
        · simp [parseProceso, hurl]
        · intro r hr
          simp [parseProceso, hurl] at hr
      · constructor
        · simp [parseProceso, hurl]
        · intro r hr
          simp only [parseProceso, if_neg hurl, Option.some.injEq] at hr
          subst hr
          refine ⟨?_, ?_, ?_, ?_⟩
          · rintro rfl
            exact ⟨rfl, rfl⟩
          · rintro rfl
            rfl
          · rintro rfl
            rfl
          · intro cb' s hc hs hnone
            subst hc
            simp [hs, hnone]

/-- Witness for C6: a header without an anchor is skipped even though
its date block is present; a record with no optional blocks gets the
defaults; comment text `"abc"` yields a comment count of 0. -/
theorem C6_witness :
    parseProceso ⟨some none, some ⟨some ⟨some "01/01/2024"⟩, none⟩, none,
        some ⟨some "7"⟩⟩ = none ∧
    parseProceso ⟨some (some ⟨" T ", some "u"⟩), none, none, none⟩ =
      some ⟨"T", "u", "", "", "", 0⟩ ∧
    (⟨"T", "u", "", "", "", 0⟩ : Normativa).fecha_publicacion = "" ∧
    (⟨"T", "u", "", "", "", 0⟩ : Normativa).estado = "" ∧
    (⟨"T", "u", "", "", "", 0⟩ : Normativa).comentarios = 0 ∧
    (parseProceso ⟨some (some ⟨"T", some "u"⟩), none, none,
        some ⟨some " abc "⟩⟩).map (fun r => r.comentarios) = some 0 := by
  have hskip := (C6_skip_only_missing_identity
    ⟨some none, some ⟨some ⟨some "01/01/2024"⟩, none⟩, none,
      some ⟨some "7"⟩⟩).1.mpr (Or.inr (Or.inl rfl))
  have hdef := (C6_skip_only_missing_identity
    ⟨some (some ⟨" T ", some "u"⟩), none, none, none⟩).2
    ⟨"T", "u", "", "", "", 0⟩ (by decide)
  have habc : parseProceso ⟨some (some ⟨"T", some "u"⟩), none, none,
      some ⟨some " abc "⟩⟩ = some ⟨"T", "u", "", "", "", 0⟩ := by decide
  have hcom := (C6_skip_only_missing_identity
    ⟨some (some ⟨"T", some "u"⟩), none, none, some ⟨some " abc "⟩⟩).2
    ⟨"T", "u", "", "", "", 0⟩ habc
  have hzero := hcom.2.2.2 ⟨some " abc "⟩ " abc " rfl rfl (by decide)
  refine ⟨hskip, by decide, (hdef.1 rfl).1, hdef.2.1 rfl, hdef.2.2.1 rfl, ?_⟩
  rw [habc]
  exact congrArg some hzero

/-- C7: with the source's fixed arguments (3 attempts, 5-second delay),
the retry wrapper calls the wrapped function at most three times, every
pause between attempts is exactly 5 seconds, the first successful
attempt's value is returned without further calls, and when all three
attempts fail the third attempt's error is the surfaced result. -/
theorem C7_retry_policy {E A : Type} (f : Nat → Except E A) :
    (retry_with_delay f 3 5).calls ≤ 3 ∧
    (∀ d ∈ (retry_with_delay f 3 5).sleeps, d = 5) ∧
    (∀ a, f 0 = .ok a → retry_with_delay f 3 5 = ⟨.ok a, 1, []⟩) ∧
    (∀ e0 a, f 0 = .error e0 → f 1 = .ok a →
      retry_with_delay f 3 5 = ⟨.ok a, 2, [5]⟩) ∧
    (∀ e0 e1 a, f 0 = .error e0 → f 1 = .error e1 → f 2 = .ok a →
      retry_with_delay f 3 5 = ⟨.ok a, 3, [5, 5]⟩) ∧
    (∀ e0 e1 e2, f 0 = .error e0 → f 1 = .error e1 → f 2 = .error e2 →
      retry_with_delay f 3 5 = ⟨.error e2, 3, [5, 5]⟩) := by
  have trace : retry_with_delay f 3 5 = retryAux f 5 0 2 := rfl
  refine ⟨?_, ?_, ?_, ?_, ?_, ?_⟩
  · rw [trace]
    cases h0 : f 0 with
    | ok a => simp [retryAux, h0]
    | error e0 =>
      cases h1 : f 1 with
      | ok a => simp [retryAux, h0, h1]
      | error e1 => simp [retryAux, h0, h1]
  · rw [trace]
    intro d hd
    cases h0 : f 0 with
    | ok a => simp [retryAux, h0] at hd
    | error e0 =>
      cases h1 : f 1 with
      | ok a =>
        simp [retryAux, h0, h1] at hd
        exact hd
      | error e1 =>
        simp [retryAux, h0, h1] at hd
        exact hd
  · intro a h0
    rw [trace]
    simp [retryAux, h0]
  · intro e0 a h0 h1
    rw [trace]
    simp [retryAux, h0, h1]
  · intro e0 e1 a h0 h1 h2
    rw [trace]
    simp [retryAux, h0, h1, h2]
  · intro e0 e1 e2 h0 h1 h2
    rw [trace]
    simp [retryAux, h0, h1, h2]

/-- Witness for C7: a function failing only on its first attempt
succeeds on the second call after one 5-second pause; a function that
always fails is called three times and the third error is surfaced. -/
theorem C7_witness :
    retry_with_delay (fun i => if i == 0 then Except.error 7 else Except.ok 42) 3 5 =
      ⟨Except.ok 42, 2, [5]⟩ ∧
    retry_with_delay (fun _ => (Except.error 9 : Except Nat Nat)) 3 5 =
      ⟨Except.error 9, 3, [5, 5]⟩ := by
  constructor
  · exact (C7_retry_policy
      (fun i => if i == 0 then Except.error 7 else Except.ok 42)).2.2.2.1
      7 42 rfl rfl
  · exact (C7_retry_policy
      (fun _ => (Except.error 9 : Except Nat Nat))).2.2.2.2.2
      9 9 9 rfl rfl rfl

end SUCOP
